import Mathlib

/-!
Verification of the `sta-da-move-to-backup` GitHub action
(`src/.github/actions/sta-da-move-to-backup/sta-da-move-to-backup.js`).

The script is a sequential orchestrator: it validates inputs, acquires a
token, lists source items via the DA Admin API, creates a timestamped
backup folder, and moves each eligible item into it.  We embed the script
shallowly: the remote API and the clock are an explicit environment
(`Env`), the run produces a trace of API calls plus the CI outputs
(`RunResult`).  JavaScript truthiness on optional string fields is modelled
by `falsy`.
-/

namespace DaBackup

/-- A character the ECMAScript `String.prototype.trim` strips: WhiteSpace
(TAB, VT, FF, SP, NBSP, ZWNBSP) or LineTerminator (LF, CR, LS, PS).  -/
def isJsWhitespace (c : Char) : Bool :=
  [9, 10, 11, 12, 13, 32, 160, 8232, 8233, 65279].contains c.toNat

/-- ECMAScript `String.prototype.trim`: strip leading and trailing
whitespace.  -/
def jsTrim (s : String) : String :=
  String.mk (((s.data.dropWhile isJsWhitespace).reverse.dropWhile isJsWhitespace).reverse)

/-- A source item returned by the listing API.  In JavaScript each of the
fields may be absent (`undefined`), which we model with `Option`.  -/
structure Source where
  name : Option String
  path : Option String
  ext  : Option String
  deriving Repr, DecidableEq

/-- JavaScript truthiness test for an optional string: `undefined` and the
empty string are falsy (`!x` is true).  -/
def falsy : Option String → Bool
  | none => true
  | some s => s = ""

/-- The reserved items of line 167: `tools` and `block-collection`.  -/
def reservedItems : List String := ["tools", "block-collection"]

/-- `reservedItems.includes(source.name)` (line 172): comparing an absent
`name` (`undefined`) with the reserved strings is always false.  -/
def isReserved (name : Option String) : Bool :=
  match name with
  | some n => reservedItems.contains n
  | none => false

/-- The malformed-record test of line 179: `!source.path || !source.name`. -/
def isMalformed (s : Source) : Bool :=
  falsy s.path || falsy s.name

/-- `const fileName = source.ext ? `{name}.{ext}` : source.name;`
(line 187).  A falsy `ext` (absent or empty) yields the bare name.  -/
def fileName (s : Source) : String :=
  if falsy s.ext then s.name.getD "" else s.name.getD "" ++ "." ++ s.ext.getD ""

/-- `const destPath = `/{org}/{repo}/{backup.path}/{fileName}`;`
(line 188).  -/
def destPath (org repo backupPath : String) (s : Source) : String :=
  "/" ++ org ++ "/" ++ repo ++ "/" ++ backupPath ++ "/" ++ fileName s

/-- The per-item decision of the move loop (lines 170-190): `none` when the
item is skipped (reserved name, or malformed record), otherwise the
`(sourcePath, destPath)` pair handed to `moveSource`.  -/
def moveCallFor (org repo backupPath : String) (s : Source) :
    Option (String × String) :=
  if isReserved s.name then none
  else if isMalformed s then none
  else some (s.path.getD "", destPath org repo backupPath s)

/-- The move loop of lines 170-196.  `moveOk src dest` tells whether the
`moveSource` call succeeds (`true`) or throws (`false`); the `catch` of
line 194 swallows the failure and the loop continues.  Returns the list of
attempted move calls in order and the final `movedCount`.  -/
def moveLoop (org repo backupPath : String)
    (moveOk : String → String → Bool) :
    List Source → List (String × String) × Nat
  | [] => ([], 0)
  | s :: rest =>
    match moveCallFor org repo backupPath s with
    | none => moveLoop org repo backupPath moveOk rest
    | some (src, dst) =>
      let (calls, cnt) := moveLoop org repo backupPath moveOk rest
      ((src, dst) :: calls, (if moveOk src dst then 1 else 0) + cnt)

/-! ### Timestamp and backup folder (`createBackupFolder`, lines 85-100) -/

/-- A UTC wall-clock instant as `new Date()` decomposes it.  Real dates
satisfy `month ≤ 12`, `day ≤ 31`, … ; the theorems assume only the digit
bounds they need.  -/
structure DateTime where
  year : Nat
  month : Nat
  day : Nat
  hour : Nat
  minute : Nat
  second : Nat
  ms : Nat
  deriving Repr, DecidableEq

/-- Decimal digit character: `digitChar n` is the digit for `n % 10`.  -/
def digitChar (n : Nat) : Char :=
  [Char.ofNat 48, Char.ofNat 49, Char.ofNat 50, Char.ofNat 51, Char.ofNat 52,
   Char.ofNat 53, Char.ofNat 54, Char.ofNat 55, Char.ofNat 56,
   Char.ofNat 57].getD (n % 10) (Char.ofNat 48)

/-- Two-digit zero-padded field of `Date.prototype.toISOString`
(faithful for `n < 100`).  -/
def pad2 (n : Nat) : List Char := [digitChar (n / 10), digitChar n]

/-- Three-digit zero-padded milliseconds field (faithful for `n < 1000`). -/
def pad3 (n : Nat) : List Char := [digitChar (n / 100), digitChar (n / 10), digitChar n]

/-- Four-digit zero-padded year field (faithful for `n < 10000`).  -/
def pad4 (n : Nat) : List Char :=
  [digitChar (n / 1000), digitChar (n / 100), digitChar (n / 10), digitChar n]

/-- `new Date().toISOString()`: `YYYY-MM-DDTHH:MM:SS.mmmZ`, as a character
list.  -/
def isoChars (d : DateTime) : List Char :=
  pad4 d.year ++ ['-'] ++ pad2 d.month ++ ['-'] ++ pad2 d.day ++ ['T'] ++
  pad2 d.hour ++ [':'] ++ pad2 d.minute ++ [':'] ++ pad2 d.second ++
  ['.'] ++ pad3 d.ms ++ ['Z']

/-- The regex replacement `.replace(/[:.]/g, '-')` applied per character. -/
def hyphenate (c : Char) : Char :=
  if c = ':' ∨ c = '.' then '-' else c

/-- `new Date().toISOString().replace(/[:.]/g, '-').slice(0, 19)`
(line 86).  -/
def backupTimestamp (d : DateTime) : String :=
  String.mk (((isoChars d).map hyphenate).take 19)

/-- The `{name, path}` pair computed by `createBackupFolder` (lines 86-91):
`backup-<timestamp>`, placed under `parentPath` when that is truthy.  -/
def backupFolder (d : DateTime) (parentPath : String) : String × String :=
  let backupName := "backup-" ++ backupTimestamp d
  let backupPath := if parentPath = "" then backupName else parentPath ++ "/" ++ backupName
  (backupName, backupPath)

/-! ### API client (`daFetch`, `listSources`, lines 25-75) -/

/-- The HTTP response to the list call, as the script can observe it.  -/
inductive ListResponse
  /-- `!res.ok`: `daFetch` throws `DA Admin API error {status}: {text}`. -/
  | httpError (status : Nat) (body : String)
  /-- HTTP 204 No Content: `daFetch` returns `null` (lines 51-53).  -/
  | noContent
  /-- A JSON body that is a bare array of sources.  -/
  | arr (sources : List Source)
  /-- A JSON object body, with or without a `sources` field.  -/
  | obj (sources : Option (List Source))
  deriving Repr

/-- The value `daFetch` hands back to `listSources` on success.  -/
inductive DaData
  | null
  | arr (sources : List Source)
  | obj (sources : Option (List Source))
  deriving Repr, DecidableEq

/-- `daFetch` for the list endpoint: throws on non-ok status, returns
`null` on 204, otherwise the parsed JSON (lines 44-59).  -/
def daFetchList : ListResponse → Except String DaData
  | .httpError status body =>
    .error ("DA Admin API error " ++ toString status ++ ": " ++ body)
  | .noContent => .ok .null
  | .arr l => .ok (.arr l)
  | .obj o => .ok (.obj o)

/-- `listSources` (lines 70-75): `Array.isArray(data) ? data :
(data.sources || [])`.  When `daFetch` returned `null`, reading
`data.sources` throws a `TypeError` (exact engine message abstracted).  -/
def listSources (r : ListResponse) : Except String (List Source) :=
  match daFetchList r with
  | .error e => .error e
  | .ok .null =>
    .error "TypeError: Cannot read properties of null (reading sources)"
  | .ok (.arr l) => .ok l
  | .ok (.obj o) => .ok (o.getD [])

/-! ### The `run` orchestrator (lines 127-205) -/

/-- Everything external the run depends on: the CI inputs (as
`core.getInput` returns them, `""` when unset), the token-helper result
(`none` models a `null`/`undefined` token), the listing response, whether
the folder-creation call succeeds, the per-call fate of each move, and the
clock.  -/
structure Env where
  orgInput : String
  repoInput : String
  pathInput : String
  token : Option String
  listResponse : ListResponse
  createResult : Except String Unit
  moveOk : String → String → Bool
  now : DateTime

/-- One API request issued by the run, in order.  -/
inductive ApiCall
  | list (endpoint : String)
  | createFolder (endpoint : String)
  | move (sourcePath destPath : String)
  deriving Repr, DecidableEq

/-- The externally visible outcome of one invocation: the API calls
issued, the `backup_folder_name` and `error_message` outputs, the logged
moved-count, and whether `core.setFailed` was called.  -/
structure RunResult where
  calls : List ApiCall
  backupFolderName : Option String
  errorMessage : Option String
  movedCount : Nat
  failed : Bool
  deriving Repr, DecidableEq

/-- The `catch` block of lines 200-204: error log, `error_message` output,
failed status.  -/
def failResult (calls : List ApiCall) (msg : String) : RunResult :=
  { calls := calls
    backupFolderName := none
    errorMessage := some ("❌ DA backup failed: " ++ msg)
    movedCount := 0
    failed := true }

/-- The `run` function (lines 127-205), with every `await`ed external
effect resolved through `env`.  -/
def runAction (env : Env) : RunResult :=
  let org := (jsTrim env.orgInput)
  let repo := (jsTrim env.repoInput)
  let path := (jsTrim env.pathInput)
  if org = "" || repo = "" then
    failResult [] "Both org and repo inputs are required"
  else
    match env.token with
    | none => failResult []
        "No access token available. Please configure DA_CLIENT_ID, DA_CLIENT_SECRET, DA_SERVICE_TOKEN or IMS_TOKEN secrets."
    | some tok =>
      if tok = "" then
        failResult []
          "No access token available. Please configure DA_CLIENT_ID, DA_CLIENT_SECRET, DA_SERVICE_TOKEN or IMS_TOKEN secrets."
      else
        let listCall := ApiCall.list ("/list/" ++ org ++ "/" ++ repo ++ "/" ++ path)
        match listSources env.listResponse with
        | .error e => failResult [listCall] e
        | .ok sources =>
          if sources.length = 0 then
            { calls := [listCall]
              backupFolderName := some "no-backup-needed"
              errorMessage := none
              movedCount := 0
              failed := false }
          else
            let backup := backupFolder env.now path
            let createCall :=
              ApiCall.createFolder ("/source/" ++ org ++ "/" ++ repo ++ "/" ++ backup.2)
            match env.createResult with
            | .error e => failResult [listCall, createCall] e
            | .ok _ =>
              let (mcalls, cnt) := moveLoop org repo backup.2 env.moveOk sources
              { calls := [listCall, createCall] ++ mcalls.map (fun p => .move p.1 p.2)
                backupFolderName := some backup.1
                errorMessage := none
                movedCount := cnt
                failed := false }

/-! ### Helper lemmas about the move loop and the run -/

/-- The move calls contained in an API-call trace, in order. -/
def moveCallsOf (r : RunResult) : List (String × String) :=
  r.calls.filterMap (fun c => match c with | .move p d => some (p, d) | _ => none)

theorem moveLoop_fst (org repo bp : String) (ok : String → String → Bool)
    (l : List Source) :
    (moveLoop org repo bp ok l).1 = l.filterMap (moveCallFor org repo bp) := by
  induction l with
  | nil => rfl
  | cons s rest ih =>
    cases h : moveCallFor org repo bp s with
    | none => simp [moveLoop, h, ih]
    | some p =>
      cases p with
      | mk src dst => simp [moveLoop, h, ih]

theorem moveLoop_snd (org repo bp : String) (ok : String → String → Bool)
    (l : List Source) :
    (moveLoop org repo bp ok l).2 =
      List.countP (fun c => ok c.1 c.2) (moveLoop org repo bp ok l).1 := by
  induction l with
  | nil => rfl
  | cons s rest ih =>
    cases h : moveCallFor org repo bp s with
    | none => simp [moveLoop, h, ih]
    | some p =>
      cases p with
      | mk src dst =>
        simp [moveLoop, h, ih, List.countP_cons]
        cases hok : ok src dst
        · simp [hok]
        · simp [hok]
          omega

theorem length_count_split (org repo bp : String) (l : List Source) :
    l.length =
      List.countP (fun s => isReserved s.name) l +
      List.countP (fun s => !isReserved s.name && isMalformed s) l +
      (l.filterMap (moveCallFor org repo bp)).length := by
  induction l with
  | nil => rfl
  | cons s rest ih =>
    by_cases h1 : isReserved s.name = true
    · simp [List.countP_cons, moveCallFor, h1]
      omega
    · rw [Bool.not_eq_true] at h1
      by_cases h2 : isMalformed s = true
      · simp [List.countP_cons, moveCallFor, h1, h2]
        omega
      · rw [Bool.not_eq_true] at h2
        simp [List.countP_cons, moveCallFor, h1, h2]
        omega

/-- Full characterisation of a run in which every precondition holds and
the listing is non-empty: the trace is the list call, the folder-creation
call, then exactly the move calls selected by `moveCallFor`.  -/
theorem runAction_ok (env : Env) (t : String) (l : List Source)
    (horg : (jsTrim env.orgInput) ≠ "") (hrepo : (jsTrim env.repoInput) ≠ "")
    (htok : env.token = some t) (ht : t ≠ "")
    (hlist : listSources env.listResponse = .ok l) (hne : l ≠ [])
    (hcreate : env.createResult = .ok ()) :
    runAction env =
      { calls :=
          [ApiCall.list ("/list/" ++ (jsTrim env.orgInput) ++ "/" ++ (jsTrim env.repoInput) ++ "/" ++ (jsTrim env.pathInput)),
           ApiCall.createFolder ("/source/" ++ (jsTrim env.orgInput) ++ "/" ++ (jsTrim env.repoInput) ++ "/" ++ (backupFolder env.now (jsTrim env.pathInput)).2)] ++
          ((l.filterMap (moveCallFor (jsTrim env.orgInput) (jsTrim env.repoInput) (backupFolder env.now (jsTrim env.pathInput)).2)).map
            (fun p => ApiCall.move p.1 p.2))
        backupFolderName := some (backupFolder env.now (jsTrim env.pathInput)).1
        errorMessage := none
        movedCount := (moveLoop (jsTrim env.orgInput) (jsTrim env.repoInput) (backupFolder env.now (jsTrim env.pathInput)).2 env.moveOk l).2
        failed := false } := by
  unfold runAction
  rw [htok, hlist]
  have hlen : ¬ (l.length = 0) := by
    simpa [List.length_eq_zero] using hne
  simp [horg, hrepo, ht, hlen, hcreate, moveLoop_fst]

/-! ### Concrete fixtures used by the witness theorems -/

/-- A reserved listing item, as in the worked example of the spec.  -/
def srcReserved : Source := { name := some "tools", path := some "/o/r/tools", ext := none }

/-- A well-formed file item with an extension.  -/
def srcFile : Source := { name := some "index", path := some "/o/r/index", ext := some "html" }

/-- A malformed item: it has a `name` but no `path`.  -/
def srcNoPath : Source := { name := some "x", path := none, ext := none }

/-- A sample listing with one reserved, one movable and one malformed item. -/
def sampleSources : List Source := [srcReserved, srcFile, srcNoPath]

/-- A fixed clock reading for the witnesses.  -/
def sampleDate : DateTime :=
  { year := 2025, month := 1, day := 2, hour := 3, minute := 4, second := 5, ms := 6 }

/-- A fully healthy environment for the witnesses.  -/
def sampleEnv : Env where
  orgInput := "o"
  repoInput := "r"
  pathInput := ""
  token := some "t"
  listResponse := .arr sampleSources
  createResult := .ok ()
  moveOk := fun _ _ => true
  now := sampleDate

/-- Environment whose listing comes back empty.  -/
def sampleEnvEmpty : Env := { sampleEnv with listResponse := .arr [] }

/-- Environment whose org input is whitespace only.  -/
def sampleEnvNoOrg : Env := { sampleEnv with orgInput := "   " }

/-- Environment whose list call returns HTTP 204 No Content.  -/
def sampleEnv204 : Env := { sampleEnv with listResponse := .noContent }

/-! ### Claim C1 -/

/-- Claim C1 fails as stated: the item `srcNoPath` has a `name` (so it
does not lack both `path` and `name`), it is not reserved, and yet the
move loop issues no move call for it — the code (line 179) skips on
`!source.path || !source.name`, i.e. when at least one field is missing,
not when both are.  -/
theorem c1_counterexample :
    isReserved srcNoPath.name = false ∧
    ¬(falsy srcNoPath.path = true ∧ falsy srcNoPath.name = true) ∧
    (moveLoop "o" "r" "b" (fun _ _ => true) [srcNoPath]).1 = [] := by
  decide

/-- Claim C1 (amended): in the move loop, a non-reserved listed item is
skipped as malformed — no move call issued — exactly when it lacks at
least one of `path` and `name`; an item that has both is passed to the
move operation.  -/
theorem c1_theorem (org repo bp : String) (ok : String → String → Bool)
    (s : Source) (rest : List Source) (hres : isReserved s.name = false) :
    (falsy s.path = true ∨ falsy s.name = true →
      moveLoop org repo bp ok (s :: rest) = moveLoop org repo bp ok rest) ∧
    (falsy s.path = false ∧ falsy s.name = false →
      (moveLoop org repo bp ok (s :: rest)).1 =
        (s.path.getD "", destPath org repo bp s) :: (moveLoop org repo bp ok rest).1) := by
  constructor
  · intro h
    have hm : isMalformed s = true := by
      unfold isMalformed
      rcases h with h | h <;> simp [h]
    simp [moveLoop, moveCallFor, hres, hm]
  · rintro ⟨h1, h2⟩
    have hm : isMalformed s = false := by simp [isMalformed, h1, h2]
    simp [moveLoop, moveCallFor, hres, hm]

/-- Witness for the amended claim C1 at the concrete item `srcFile`.  -/
theorem c1_witness :
    isReserved srcFile.name = false ∧
    (falsy srcFile.path = false ∧ falsy srcFile.name = false →
      (moveLoop "o" "r" "b" (fun _ _ => true) (srcFile :: [])).1 =
        (srcFile.path.getD "", destPath "o" "r" "b" srcFile) ::
          (moveLoop "o" "r" "b" (fun _ _ => true) []).1) :=
  ⟨by decide, ( c1_theorem "o" "r" "b" (fun _ _ => true) srcFile [] (by decide)).2⟩

/-! ### Claim C4 -/

/-- Claim C4: when the listing returns an empty sequence the run issues
the list call only — no folder-creation call and no move call — and
terminates successfully with output `backup_folder_name` equal to the
sentinel `no-backup-needed`.  -/
theorem c4_theorem (env : Env) (t : String)
    (horg : jsTrim env.orgInput ≠ "") (hrepo : jsTrim env.repoInput ≠ "")
    (htok : env.token = some t) (ht : t ≠ "")
    (hlist : listSources env.listResponse = .ok []) :
    runAction env =
      { calls := [ApiCall.list ("/list/" ++ (jsTrim env.orgInput) ++ "/" ++ (jsTrim env.repoInput) ++ "/" ++ (jsTrim env.pathInput))]
        backupFolderName := some "no-backup-needed"
        errorMessage := none
        movedCount := 0
        failed := false } ∧
    (∀ e, ApiCall.createFolder e ∉ (runAction env).calls) ∧
    (∀ p d, ApiCall.move p d ∉ (runAction env).calls) := by
  have hr : runAction env =
      { calls := [ApiCall.list ("/list/" ++ (jsTrim env.orgInput) ++ "/" ++ (jsTrim env.repoInput) ++ "/" ++ (jsTrim env.pathInput))]
        backupFolderName := some "no-backup-needed"
        errorMessage := none
        movedCount := 0
        failed := false } := by
    unfold runAction
    rw [htok, hlist]
    simp [horg, hrepo, ht]
  exact ⟨hr, by simp [hr], by simp [hr]⟩

/-- Witness for claim C4 at the concrete environment `sampleEnvEmpty`.  -/
theorem c4_witness :
    (jsTrim sampleEnvEmpty.orgInput ≠ "" ∧ jsTrim sampleEnvEmpty.repoInput ≠ "" ∧
      sampleEnvEmpty.token = some "t" ∧ ("t" : String) ≠ "" ∧
      listSources sampleEnvEmpty.listResponse = .ok []) ∧
    runAction sampleEnvEmpty =
      { calls := [ApiCall.list ("/list/" ++ (jsTrim sampleEnvEmpty.orgInput) ++ "/" ++ (jsTrim sampleEnvEmpty.repoInput) ++ "/" ++ (jsTrim sampleEnvEmpty.pathInput))]
        backupFolderName := some "no-backup-needed"
        errorMessage := none
        movedCount := 0
        failed := false } :=
  ⟨⟨by decide, by decide, rfl, by decide, rfl⟩,
    (c4_theorem sampleEnvEmpty "t" (by decide) (by decide) rfl (by decide) rfl).1⟩

/-! ### Claim C8 -/

/-- Claim C8: when org or repo is missing or trims to the empty string
the run fails with the configuration error before any API call: the
trace is empty, the `error_message` output is emitted, and the run is
marked failed.  -/
theorem c8_theorem (env : Env)
    (h : jsTrim env.orgInput = "" ∨ jsTrim env.repoInput = "") :
    runAction env = failResult [] "Both org and repo inputs are required" ∧
    (runAction env).calls = [] ∧
    (runAction env).errorMessage =
      some "❌ DA backup failed: Both org and repo inputs are required" ∧
    (runAction env).failed = true := by
  have hr : runAction env = failResult [] "Both org and repo inputs are required" := by
    unfold runAction
    rcases h with h | h <;> simp [h]
  exact ⟨hr, by rw [hr]; rfl, by rw [hr]; rfl, by rw [hr]; rfl⟩

/-- Witness for claim C8 at the concrete environment `sampleEnvNoOrg`.  -/
theorem c8_witness :
    (jsTrim sampleEnvNoOrg.orgInput = "" ∨ jsTrim sampleEnvNoOrg.repoInput = "") ∧
    (runAction sampleEnvNoOrg = failResult [] "Both org and repo inputs are required" ∧
      (runAction sampleEnvNoOrg).calls = [] ∧
      (runAction sampleEnvNoOrg).errorMessage =
        some "❌ DA backup failed: Both org and repo inputs are required" ∧
      (runAction sampleEnvNoOrg).failed = true) :=
  ⟨Or.inl (by decide), c8_theorem sampleEnvNoOrg (Or.inl (by decide))⟩

/-! ### Claim C10 -/

/-- Claim C10: on an HTTP 204 No Content list response the API client
yields the null result, the listing step turns that into a `TypeError`
(dereferencing `sources` on null), and the run aborts as failed — it is
not treated as an empty listing, so the sentinel success output is never
produced and only the list call is issued.  -/
theorem c10_theorem (env : Env) (t : String)
    (horg : jsTrim env.orgInput ≠ "") (hrepo : jsTrim env.repoInput ≠ "")
    (htok : env.token = some t) (ht : t ≠ "")
    (hresp : env.listResponse = .noContent) :
    daFetchList ListResponse.noContent = .ok DaData.null ∧
    listSources ListResponse.noContent =
      .error "TypeError: Cannot read properties of null (reading sources)" ∧
    runAction env =
      failResult
        [ApiCall.list ("/list/" ++ (jsTrim env.orgInput) ++ "/" ++ (jsTrim env.repoInput) ++ "/" ++ (jsTrim env.pathInput))]
        "TypeError: Cannot read properties of null (reading sources)" ∧
    (runAction env).failed = true ∧
    (runAction env).backupFolderName ≠ some "no-backup-needed" := by
  have hr : runAction env =
      failResult
        [ApiCall.list ("/list/" ++ (jsTrim env.orgInput) ++ "/" ++ (jsTrim env.repoInput) ++ "/" ++ (jsTrim env.pathInput))]
        "TypeError: Cannot read properties of null (reading sources)" := by
    unfold runAction
    rw [htok, hresp]
    simp [horg, hrepo, ht, listSources, daFetchList]
  refine ⟨rfl, rfl, hr, by rw [hr]; rfl, by rw [hr]; simp [failResult]⟩

/-- Witness for claim C10 at the concrete environment `sampleEnv204`.  -/
theorem c10_witness :
    (jsTrim sampleEnv204.orgInput ≠ "" ∧ jsTrim sampleEnv204.repoInput ≠ "" ∧
      sampleEnv204.token = some "t" ∧ ("t" : String) ≠ "" ∧
      sampleEnv204.listResponse = .noContent) ∧
    (daFetchList ListResponse.noContent = .ok DaData.null ∧
      (runAction sampleEnv204).failed = true ∧
      (runAction sampleEnv204).backupFolderName ≠ some "no-backup-needed") :=
  ⟨⟨by decide, by decide, rfl, by decide, rfl⟩,
    ⟨(c10_theorem sampleEnv204 "t" (by decide) (by decide) rfl (by decide) rfl).1,
      (c10_theorem sampleEnv204 "t" (by decide) (by decide) rfl (by decide) rfl).2.2.2.1,
      (c10_theorem sampleEnv204 "t" (by decide) (by decide) rfl (by decide) rfl).2.2.2.2⟩⟩

/-! ### Claims C2, C3, C5, C7: the move phase of a healthy run -/

theorem filterMap_move_map (L : List (String × String)) :
    (L.map (fun p => ApiCall.move p.1 p.2)).filterMap
      (fun c => match c with | ApiCall.move p d => some (p, d) | _ => none) = L := by
  induction L with
  | nil => rfl
  | cons a rest ih => simp [ih]

/-- In a healthy run the move calls of the trace are exactly the calls
selected by `moveCallFor`, in listing order.  -/
theorem runAction_moveCalls (env : Env) (t : String) (l : List Source)
    (horg : jsTrim env.orgInput ≠ "") (hrepo : jsTrim env.repoInput ≠ "")
    (htok : env.token = some t) (ht : t ≠ "")
    (hlist : listSources env.listResponse = .ok l) (hne : l ≠ [])
    (hcreate : env.createResult = .ok ()) :
    moveCallsOf (runAction env) =
      l.filterMap (moveCallFor (jsTrim env.orgInput) (jsTrim env.repoInput)
        (backupFolder env.now (jsTrim env.pathInput)).2) := by
  rw [runAction_ok env t l horg hrepo htok ht hlist hne hcreate]
  unfold moveCallsOf
  simp only [List.filterMap_append, List.filterMap_cons, List.filterMap_nil,
    filterMap_move_map]
  rfl

/-- Claim C2: in every run with non-empty (trimmed) org and repo, a valid
token and a non-empty listing, the number of move calls issued equals the
number of listed items minus the reserved-name items minus the items
skipped as malformed (missing name or path, not reserved).  -/
theorem c2_theorem (env : Env) (t : String) (l : List Source)
    (horg : jsTrim env.orgInput ≠ "") (hrepo : jsTrim env.repoInput ≠ "")
    (htok : env.token = some t) (ht : t ≠ "")
    (hlist : listSources env.listResponse = .ok l) (hne : l ≠ [])
    (hcreate : env.createResult = .ok ()) :
    (moveCallsOf (runAction env)).length =
      l.length - List.countP (fun s => isReserved s.name) l
               - List.countP (fun s => !isReserved s.name && isMalformed s) l := by
  rw [runAction_moveCalls env t l horg hrepo htok ht hlist hne hcreate]
  have hsplit := length_count_split (jsTrim env.orgInput) (jsTrim env.repoInput)
    (backupFolder env.now (jsTrim env.pathInput)).2 l
  omega

/-- Witness for claim C2 at `sampleEnv`: 3 listed items, 1 reserved,
1 malformed, so exactly 1 move call.  -/
theorem c2_witness :
    (jsTrim sampleEnv.orgInput ≠ "" ∧ jsTrim sampleEnv.repoInput ≠ "" ∧
      sampleEnv.token = some "t" ∧ ("t" : String) ≠ "" ∧
      listSources sampleEnv.listResponse = .ok sampleSources ∧
      sampleSources ≠ [] ∧ sampleEnv.createResult = .ok ()) ∧
    (moveCallsOf (runAction sampleEnv)).length =
      sampleSources.length -
        List.countP (fun s => isReserved s.name) sampleSources -
        List.countP (fun s => !isReserved s.name && isMalformed s) sampleSources :=
  ⟨⟨by decide, by decide, rfl, by decide, rfl, by decide, rfl⟩,
    c2_theorem sampleEnv "t" sampleSources (by decide) (by decide) rfl (by decide)
      rfl (by decide) rfl⟩

theorem filterMap_filter_not_reserved (org repo bp : String) (l : List Source) :
    l.filterMap (moveCallFor org repo bp) =
      (l.filter (fun s => !isReserved s.name)).filterMap (moveCallFor org repo bp) := by
  induction l with
  | nil => rfl
  | cons s rest ih =>
    by_cases h : isReserved s.name = true
    · simp [List.filter_cons, h, moveCallFor, ih]
    · rw [Bool.not_eq_true] at h
      simp [List.filter_cons, h, List.filterMap_cons, ih]

/-- Claim C3: no item with a reserved name (`tools`, `block-collection`)
is ever passed to the move operation: `moveCallFor` yields `none` for any
reserved item, and the move calls of a run are exactly those of the
non-reserved part of the listing.  -/
theorem c3_theorem (env : Env) (t : String) (l : List Source)
    (horg : jsTrim env.orgInput ≠ "") (hrepo : jsTrim env.repoInput ≠ "")
    (htok : env.token = some t) (ht : t ≠ "")
    (hlist : listSources env.listResponse = .ok l) (hne : l ≠ [])
    (hcreate : env.createResult = .ok ()) :
    (∀ s : Source, isReserved s.name = true →
      moveCallFor (jsTrim env.orgInput) (jsTrim env.repoInput)
        (backupFolder env.now (jsTrim env.pathInput)).2 s = none) ∧
    moveCallsOf (runAction env) =
      (l.filter (fun s => !isReserved s.name)).filterMap
        (moveCallFor (jsTrim env.orgInput) (jsTrim env.repoInput)
          (backupFolder env.now (jsTrim env.pathInput)).2) := by
  constructor
  · intro s h
    simp [moveCallFor, h]
  · rw [runAction_moveCalls env t l horg hrepo htok ht hlist hne hcreate]
    exact filterMap_filter_not_reserved _ _ _ l

/-- Witness for claim C3 at `sampleEnv`, whose listing contains the
reserved item `tools`.  -/
theorem c3_witness :
    (jsTrim sampleEnv.orgInput ≠ "" ∧ jsTrim sampleEnv.repoInput ≠ "" ∧
      sampleEnv.token = some "t" ∧ ("t" : String) ≠ "" ∧
      listSources sampleEnv.listResponse = .ok sampleSources ∧
      sampleSources ≠ [] ∧ sampleEnv.createResult = .ok ()) ∧
    ((∀ s : Source, isReserved s.name = true →
      moveCallFor (jsTrim sampleEnv.orgInput) (jsTrim sampleEnv.repoInput)
        (backupFolder sampleEnv.now (jsTrim sampleEnv.pathInput)).2 s = none) ∧
    moveCallsOf (runAction sampleEnv) =
      (sampleSources.filter (fun s => !isReserved s.name)).filterMap
        (moveCallFor (jsTrim sampleEnv.orgInput) (jsTrim sampleEnv.repoInput)
          (backupFolder sampleEnv.now (jsTrim sampleEnv.pathInput)).2)) :=
  ⟨⟨by decide, by decide, rfl, by decide, rfl, by decide, rfl⟩,
    c3_theorem sampleEnv "t" sampleSources (by decide) (by decide) rfl (by decide)
      rfl (by decide) rfl⟩

/-- Claim C5: the set of attempted move calls does not depend on which
moves fail (a failing move never aborts the batch or the run — every
subsequent eligible item is still attempted), and the final moved-count
is the number of attempted moves that succeeded, not the number
attempted.  -/
theorem c5_theorem (orgIn repoIn pathIn tok : String) (resp : ListResponse)
    (now : DateTime) (ok1 ok2 : String → String → Bool) (l : List Source)
    (horg : jsTrim orgIn ≠ "") (hrepo : jsTrim repoIn ≠ "") (ht : tok ≠ "")
    (hlist : listSources resp = .ok l) (hne : l ≠ []) :
    moveCallsOf (runAction ⟨orgIn, repoIn, pathIn, some tok, resp, .ok (), ok1, now⟩) =
      moveCallsOf (runAction ⟨orgIn, repoIn, pathIn, some tok, resp, .ok (), ok2, now⟩) ∧
    (runAction ⟨orgIn, repoIn, pathIn, some tok, resp, .ok (), ok1, now⟩).movedCount =
      List.countP (fun c => ok1 c.1 c.2)
        (moveCallsOf (runAction ⟨orgIn, repoIn, pathIn, some tok, resp, .ok (), ok1, now⟩)) := by
  have h1 := runAction_moveCalls ⟨orgIn, repoIn, pathIn, some tok, resp, .ok (), ok1, now⟩
    tok l horg hrepo rfl ht hlist hne rfl
  have h2 := runAction_moveCalls ⟨orgIn, repoIn, pathIn, some tok, resp, .ok (), ok2, now⟩
    tok l horg hrepo rfl ht hlist hne rfl
  constructor
  · rw [h1, h2]
  · rw [h1]
    rw [runAction_ok ⟨orgIn, repoIn, pathIn, some tok, resp, .ok (), ok1, now⟩
      tok l horg hrepo rfl ht hlist hne rfl]
    show (moveLoop _ _ _ ok1 l).2 = _
    rw [moveLoop_snd, moveLoop_fst]

/-- Witness for claim C5: with every move failing, the attempted calls
coincide with those of the all-successful run and the moved-count is the
count of successes (zero).  -/
theorem c5_witness :
    (jsTrim "o" ≠ "" ∧ jsTrim "r" ≠ "" ∧ ("t" : String) ≠ "" ∧
      listSources (.arr sampleSources) = .ok sampleSources ∧ sampleSources ≠ []) ∧
    (moveCallsOf (runAction ⟨"o", "r", "", some "t", .arr sampleSources, .ok (),
        fun _ _ => false, sampleDate⟩) =
      moveCallsOf (runAction ⟨"o", "r", "", some "t", .arr sampleSources, .ok (),
        fun _ _ => true, sampleDate⟩) ∧
    (runAction ⟨"o", "r", "", some "t", .arr sampleSources, .ok (),
        fun _ _ => false, sampleDate⟩).movedCount =
      List.countP (fun c => (fun _ _ => false) c.1 c.2)
        (moveCallsOf (runAction ⟨"o", "r", "", some "t", .arr sampleSources, .ok (),
          fun _ _ => false, sampleDate⟩))) :=
  ⟨⟨by decide, by decide, by decide, rfl, by decide⟩,
    c5_theorem "o" "r" "" "t" (.arr sampleSources) sampleDate
      (fun _ _ => false) (fun _ _ => true) sampleSources
      (by decide) (by decide) (by decide) rfl (by decide)⟩

/-- Claim C7: every move call of a healthy run comes from a listed,
non-reserved, well-formed item, its destination is
`/{org}/{repo}/{backup.path}/{fileName}`, and `fileName` is `name.ext`
when `ext` is present (and non-empty), else just `name`.  -/
theorem c7_theorem (env : Env) (t : String) (l : List Source)
    (horg : jsTrim env.orgInput ≠ "") (hrepo : jsTrim env.repoInput ≠ "")
    (htok : env.token = some t) (ht : t ≠ "")
    (hlist : listSources env.listResponse = .ok l) (hne : l ≠ [])
    (hcreate : env.createResult = .ok ()) :
    ∀ c ∈ moveCallsOf (runAction env), ∃ s ∈ l,
      isReserved s.name = false ∧ falsy s.path = false ∧ falsy s.name = false ∧
      c.1 = s.path.getD "" ∧
      c.2 = "/" ++ (jsTrim env.orgInput) ++ "/" ++ (jsTrim env.repoInput) ++ "/" ++
        (backupFolder env.now (jsTrim env.pathInput)).2 ++ "/" ++ fileName s ∧
      (∀ e, s.ext = some e → e ≠ "" → fileName s = s.name.getD "" ++ "." ++ e) ∧
      (s.ext = none → fileName s = s.name.getD "") := by
  intro c hc
  rw [runAction_moveCalls env t l horg hrepo htok ht hlist hne hcreate,
    List.mem_filterMap] at hc
  obtain ⟨s, hs, hcall⟩ := hc
  refine ⟨s, hs, ?_⟩
  unfold moveCallFor at hcall
  by_cases h1 : isReserved s.name = true
  · simp [h1] at hcall
  · rw [Bool.not_eq_true] at h1
    by_cases h2 : isMalformed s = true
    · simp [h1, h2] at hcall
    · rw [Bool.not_eq_true] at h2
      simp only [h1, h2, if_false, Bool.false_eq_true, Option.some.injEq] at hcall
      have hp : falsy s.path = false := by
        unfold isMalformed at h2
        cases hfp : falsy s.path
        · rfl
        · rw [hfp] at h2; simp at h2
      have hn : falsy s.name = false := by
        unfold isMalformed at h2
        cases hfn : falsy s.name
        · rfl
        · rw [hfn] at h2; simp at h2
      refine ⟨h1, hp, hn, ?_, ?_, ?_, ?_⟩
      · rw [← hcall]
      · rw [← hcall]
        rfl
      · intro e he hene
        simp [fileName, falsy, he, hene]
      · intro he
        simp [fileName, falsy, he]

/-- Witness for claim C7 at `sampleEnv`, whose single move call targets
`/o/r/backup-2025-01-02T03-04-05/index.html`.  -/
theorem c7_witness :
    (jsTrim sampleEnv.orgInput ≠ "" ∧ jsTrim sampleEnv.repoInput ≠ "" ∧
      sampleEnv.token = some "t" ∧ ("t" : String) ≠ "" ∧
      listSources sampleEnv.listResponse = .ok sampleSources ∧
      sampleSources ≠ [] ∧ sampleEnv.createResult = .ok ()) ∧
    (∀ c ∈ moveCallsOf (runAction sampleEnv), ∃ s ∈ sampleSources,
      isReserved s.name = false ∧ falsy s.path = false ∧ falsy s.name = false ∧
      c.1 = s.path.getD "" ∧
      c.2 = "/" ++ (jsTrim sampleEnv.orgInput) ++ "/" ++ (jsTrim sampleEnv.repoInput) ++ "/" ++
        (backupFolder sampleEnv.now (jsTrim sampleEnv.pathInput)).2 ++ "/" ++ fileName s ∧
      (∀ e, s.ext = some e → e ≠ "" → fileName s = s.name.getD "" ++ "." ++ e) ∧
      (s.ext = none → fileName s = s.name.getD "")) :=
  ⟨⟨by decide, by decide, rfl, by decide, rfl, by decide, rfl⟩,
    c7_theorem sampleEnv "t" sampleSources (by decide) (by decide) rfl (by decide)
      rfl (by decide) rfl⟩

/-! ### Claim C6: the backup folder name and path -/

theorem hyphenate_digitChar (n : Nat) : hyphenate (digitChar n) = digitChar n := by
  unfold hyphenate digitChar
  have h10 : n % 10 < 10 := Nat.mod_lt _ (by omega)
  revert h10
  generalize n % 10 = m
  intro h10
  interval_cases m <;> decide

/-- Claim C6: the backup folder name is `backup-` followed by a
19-character timestamp — the ISO instant with the colons replaced by
hyphens and truncated at second precision (the fractional part and its
separator are cut off by `slice(0, 19)`) — and the folder path is
`parentPath/name` when a parent path is given, else just the name.  The
digit bounds delimit the range on which the `Date` model is faithful;
every real clock reading satisfies them.  -/
theorem c6_theorem (d : DateTime) (parentPath : String)
    (hy : d.year < 10000) (hmo : d.month < 100) (hd : d.day < 100)
    (hh : d.hour < 100) (hmi : d.minute < 100) (hs : d.second < 100) :
    (backupFolder d parentPath).1 = "backup-" ++ backupTimestamp d ∧
    backupTimestamp d =
      String.mk (pad4 d.year ++ ['-'] ++ pad2 d.month ++ ['-'] ++ pad2 d.day ++ ['T'] ++
        pad2 d.hour ++ ['-'] ++ pad2 d.minute ++ ['-'] ++ pad2 d.second) ∧
    (backupTimestamp d).length = 19 ∧
    (backupFolder d parentPath).2 =
      (if parentPath = "" then (backupFolder d parentPath).1
       else parentPath ++ "/" ++ (backupFolder d parentPath).1) := by
  have hT : hyphenate 'T' = 'T' := by decide
  have hdash : hyphenate '-' = '-' := by decide
  have hcolon : hyphenate ':' = '-' := by decide
  have hdot : hyphenate '.' = '-' := by decide
  have hZ : hyphenate 'Z' = 'Z' := by decide
  have hts : backupTimestamp d =
      String.mk (pad4 d.year ++ ['-'] ++ pad2 d.month ++ ['-'] ++ pad2 d.day ++ ['T'] ++
        pad2 d.hour ++ ['-'] ++ pad2 d.minute ++ ['-'] ++ pad2 d.second) := by
    unfold backupTimestamp isoChars pad4 pad3 pad2
    simp [hyphenate_digitChar, hT, hdash, hcolon, hdot, hZ, List.take]
  refine ⟨rfl, hts, ?_, ?_⟩
  · rw [hts]
    simp [String.length, pad4, pad2]
  · rfl

/-- Witness for claim C6 at the concrete instant `sampleDate` and parent
path `docs`.  -/
theorem c6_witness :
    (sampleDate.year < 10000 ∧ sampleDate.month < 100 ∧ sampleDate.day < 100 ∧
      sampleDate.hour < 100 ∧ sampleDate.minute < 100 ∧ sampleDate.second < 100) ∧
    ((backupFolder sampleDate "docs").1 = "backup-" ++ backupTimestamp sampleDate ∧
      (backupTimestamp sampleDate).length = 19 ∧
      (backupFolder sampleDate "docs").2 =
        (if ("docs" : String) = "" then (backupFolder sampleDate "docs").1
         else "docs" ++ "/" ++ (backupFolder sampleDate "docs").1)) :=
  ⟨⟨by decide, by decide, by decide, by decide, by decide, by decide⟩,
    ⟨(c6_theorem sampleDate "docs" (by decide) (by decide) (by decide) (by decide)
        (by decide) (by decide)).1,
      (c6_theorem sampleDate "docs" (by decide) (by decide) (by decide) (by decide)
        (by decide) (by decide)).2.2.1,
      (c6_theorem sampleDate "docs" (by decide) (by decide) (by decide) (by decide)
        (by decide) (by decide)).2.2.2⟩⟩

/-! ### Claim C9: the URL encoding of `moveSource` (lines 109-120)

`moveSource` computes `encodeURIComponent(sourcePath).replace(/%2F/g, '/')`.
We model a JavaScript string as its list of Unicode code points
(`List Nat`) and `encodeURIComponent` per ECMA-262: unreserved characters
(`A-Z a-z 0-9 - _ . ! ~ * ( )` and the apostrophe) pass through, every
other code point is UTF-8 encoded and each byte written as `%` plus two
uppercase hex digits.  -/

/-- The characters `encodeURIComponent` leaves unescaped
(uriUnescaped of ECMA-262), by code point.  -/
def isUnreserved (n : Nat) : Bool :=
  (65 ≤ n && n ≤ 90) || (97 ≤ n && n ≤ 122) || (48 ≤ n && n ≤ 57) ||
  [45, 95, 46, 33, 126, 42, 39, 40, 41].contains n

/-- UTF-8 encoding of one code point, as byte values.  -/
def utf8Bytes (n : Nat) : List Nat :=
  if n < 128 then [n]
  else if n < 2048 then [192 + n / 64, 128 + n % 64]
  else if n < 65536 then [224 + n / 4096, 128 + n / 64 % 64, 128 + n % 64]
  else [240 + n / 262144, 128 + n / 4096 % 64, 128 + n / 64 % 64, 128 + n % 64]

/-- Code point of the uppercase hex digit for `k < 16`.  -/
def hexDigitCode (k : Nat) : Nat :=
  [48, 49, 50, 51, 52, 53, 54, 55, 56, 57, 65, 66, 67, 68, 69, 70].getD k 48

/-- Percent-escape of one byte: `%XY`.  -/
def pctByte (b : Nat) : List Nat := [37, hexDigitCode (b / 16), hexDigitCode (b % 16)]

/-- Percent-escape of a byte sequence.  -/
def pctBytes : List Nat → List Nat
  | [] => []
  | b :: rest => pctByte b ++ pctBytes rest

/-- `encodeURIComponent` on a single code point.  -/
def encodeChar (n : Nat) : List Nat :=
  if isUnreserved n then [n] else pctBytes (utf8Bytes n)

/-- `encodeURIComponent` on a whole string of code points.  -/
def encodeURIComponent : List Nat → List Nat
  | [] => []
  | c :: rest => encodeChar c ++ encodeURIComponent rest

/-- `.replace(/%2F/g, '/')`: scan left to right and turn every
(non-overlapping) occurrence of `%2F` (codes 37, 50, 70) into `/`
(code 47).  -/
def replacePct2F : List Nat → List Nat
  | [] => []
  | [a] => [a]
  | [a, b] => [a, b]
  | a :: b :: c :: rest =>
    if a = 37 ∧ b = 50 ∧ c = 70 then 47 :: replacePct2F rest
    else a :: replacePct2F (b :: c :: rest)

/-- The source-path encoding of `moveSource` (line 111): encode the whole
string, then restore the escaped `/` separators.  -/
def moveSourceEncode (s : List Nat) : List Nat := replacePct2F (encodeURIComponent s)

/-- `String.prototype.split` at `/`.  -/
def splitSlash : List Nat → List (List Nat)
  | [] => [[]]
  | c :: rest =>
    if c = 47 then [] :: splitSlash rest
    else
      match splitSlash rest with
      | [] => [[c]]
      | seg :: segs => (c :: seg) :: segs

/-- Join segments with `/`.  -/
def joinSlash : List (List Nat) → List Nat
  | [] => []
  | [seg] => seg
  | seg :: rest => seg ++ 47 :: joinSlash rest

/-- Modelled from the spec side of the refinement claim: encode each
`/`-separated path segment individually and rejoin with `/`.  -/
def specSegmentEncode (s : List Nat) : List Nat :=
  joinSlash ((splitSlash s).map encodeURIComponent)

/-- Common normal form of both encodings: a `/` stays a `/`, every other
code point is encoded on its own.  -/
def segEncAux : List Nat → List Nat
  | [] => []
  | c :: rest => (if c = 47 then [47] else encodeChar c) ++ segEncAux rest

theorem replace_cons (a : Nat) (l : List Nat) (h : a ≠ 37) :
    replacePct2F (a :: l) = a :: replacePct2F l := by
  rcases l with _ | ⟨b, l⟩
  · rfl
  rcases l with _ | ⟨c, l⟩
  · rfl
  simp [replacePct2F, h]

theorem replace_triple (h1 h2 : Nat) (l : List Nat)
    (hb : h1 ≠ 37) (hc : h2 ≠ 37) (hno : ¬(h1 = 50 ∧ h2 = 70)) :
    replacePct2F (37 :: h1 :: h2 :: l) = 37 :: h1 :: h2 :: replacePct2F l := by
  rw [replacePct2F]
  rw [if_neg (by tauto)]
  rw [replace_cons h1 _ hb, replace_cons h2 _ hc]

theorem hexDigitCode_ne_37 (k : Nat) : hexDigitCode k ≠ 37 := by
  unfold hexDigitCode
  by_cases h : k < 16
  · interval_cases k <;> decide
  · rw [List.getD_eq_default]
    · decide
    · simp
      omega

theorem hexDigitCode_eq_50 (k : Nat) (h : hexDigitCode k = 50) : k = 2 := by
  unfold hexDigitCode at h
  by_cases hk : k < 16
  · interval_cases k <;> simp_all
  · rw [List.getD_eq_default] at h
    · omega
    · simp
      omega

theorem hexDigitCode_eq_70 (k : Nat) (h : hexDigitCode k = 70) : k = 15 := by
  unfold hexDigitCode at h
  by_cases hk : k < 16
  · interval_cases k <;> simp_all
  · rw [List.getD_eq_default] at h
    · omega
    · simp
      omega

/-- The escape block of a byte other than `0x2F` passes through the
replacement untouched: its hex digits are never `%`, and they are never
the pair `2F`.  -/
theorem replace_pctByte (b : Nat) (l : List Nat) (hb : b ≠ 47) :
    replacePct2F (pctByte b ++ l) = pctByte b ++ replacePct2F l := by
  unfold pctByte
  simp only [List.cons_append, List.nil_append]
  apply replace_triple _ _ _ (hexDigitCode_ne_37 _) (hexDigitCode_ne_37 _)
  rintro ⟨h50, h70⟩
  have e1 := hexDigitCode_eq_50 _ h50
  have e2 := hexDigitCode_eq_70 _ h70
  omega

theorem replace_pctBytes (bs : List Nat) (l : List Nat)
    (h : ∀ b ∈ bs, b ≠ 47) :
    replacePct2F (pctBytes bs ++ l) = pctBytes bs ++ replacePct2F l := by
  induction bs with
  | nil => rfl
  | cons b rest ih =>
    have hb : b ≠ 47 := h b (by simp)
    have hrest : ∀ x ∈ rest, x ≠ 47 := fun x hx => h x (by simp [hx])
    unfold pctBytes
    rw [List.append_assoc, replace_pctByte b _ hb, ih hrest, List.append_assoc]

/-- The byte `0x2F` occurs in a UTF-8 encoding only as the single-byte
encoding of `/` itself: continuation and lead bytes are all `≥ 0x80`.  -/
theorem utf8Bytes_ne_47 (n : Nat) (h : n ≠ 47) : ∀ b ∈ utf8Bytes n, b ≠ 47 := by
  unfold utf8Bytes
  split_ifs <;> simp <;> omega

theorem replace_encode (s : List Nat) :
    replacePct2F (encodeURIComponent s) = segEncAux s := by
  induction s with
  | nil => rfl
  | cons c rest ih =>
    by_cases hc : c = 47
    · subst hc
      show replacePct2F (encodeChar 47 ++ encodeURIComponent rest) = _
      have he : encodeChar 47 = [37, 50, 70] := rfl
      rw [he]
      show replacePct2F (37 :: 50 :: 70 :: encodeURIComponent rest) = _
      rw [replacePct2F, if_pos (by omega)]
      rw [ih]
      rfl
    · by_cases hu : isUnreserved c = true
      · have hne : c ≠ 37 := by
          intro hcc
          subst hcc
          exact absurd hu (by decide)
        show replacePct2F (encodeChar c ++ encodeURIComponent rest) = _
        rw [show encodeChar c = [c] from by simp [encodeChar, hu]]
        simp only [List.cons_append, List.nil_append]
        rw [replace_cons c _ hne, ih]
        simp [segEncAux, hc, encodeChar, hu]
      · show replacePct2F (encodeChar c ++ encodeURIComponent rest) = _
        rw [show encodeChar c = pctBytes (utf8Bytes c) from by
          simp [encodeChar, hu]]
        rw [replace_pctBytes _ _ (utf8Bytes_ne_47 c hc), ih]
        simp [segEncAux, hc, encodeChar, hu]

theorem splitSlash_ne_nil (s : List Nat) : splitSlash s ≠ [] := by
  cases s with
  | nil => simp [splitSlash]
  | cons c rest =>
    unfold splitSlash
    by_cases h : c = 47
    · simp [h]
    · simp [h]
      cases hs : splitSlash rest <;> simp

theorem joinSlash_append (a seg : List Nat) (segs : List (List Nat)) :
    joinSlash ((a ++ seg) :: segs) = a ++ joinSlash (seg :: segs) := by
  cases segs with
  | nil => rfl
  | cons x xs =>
    show (a ++ seg) ++ 47 :: joinSlash (x :: xs) = a ++ (seg ++ 47 :: joinSlash (x :: xs))
    rw [List.append_assoc]

theorem specSegmentEncode_eq (s : List Nat) :
    specSegmentEncode s = segEncAux s := by
  induction s with
  | nil => rfl
  | cons c rest ih =>
    unfold specSegmentEncode
    by_cases hc : c = 47
    · subst hc
      rw [show splitSlash (47 :: rest) = [] :: splitSlash rest from by
        simp [splitSlash]]
      cases hs : splitSlash rest with
      | nil => exact absurd hs (splitSlash_ne_nil rest)
      | cons x xs =>
        show joinSlash ([] :: encodeURIComponent x :: (xs.map encodeURIComponent)) = _
        rw [show joinSlash ([] :: encodeURIComponent x :: (xs.map encodeURIComponent)) =
            47 :: joinSlash (encodeURIComponent x :: (xs.map encodeURIComponent)) from rfl]
        have hj : joinSlash (encodeURIComponent x :: (xs.map encodeURIComponent)) =
            segEncAux rest := by
          rw [← ih]
          unfold specSegmentEncode
          rw [hs]
          rfl
        rw [hj]
        simp [segEncAux]
    · cases hs : splitSlash rest with
      | nil => exact absurd hs (splitSlash_ne_nil rest)
      | cons seg segs =>
        rw [show splitSlash (c :: rest) = (c :: seg) :: segs from by
          simp [splitSlash, hc, hs]]
        rw [show ((c :: seg) :: segs).map encodeURIComponent =
            (encodeChar c ++ encodeURIComponent seg) :: segs.map encodeURIComponent from by
          simp [encodeURIComponent]]
        rw [joinSlash_append]
        have hj : joinSlash (encodeURIComponent seg :: (segs.map encodeURIComponent)) =
            segEncAux rest := by
          rw [← ih]
          unfold specSegmentEncode
          rw [hs]
          rfl
        rw [hj]
        simp [segEncAux, hc]

/-- Claim C9: for every source path, the encoding `moveSource` performs —
`encodeURIComponent` on the whole string followed by restoring the
escaped `/` separators — equals encoding each `/`-separated path segment
individually and rejoining with `/`.  -/
theorem c9_theorem (s : List Nat) : moveSourceEncode s = specSegmentEncode s := by
  rw [specSegmentEncode_eq]
  unfold moveSourceEncode
  exact replace_encode s

end DaBackup
